import Mathlib

/-!
Verification of the bundle distribution engine of uds-cli
(src/src/pkg/bundler/bundle.go: the publish path `Bundle` and the fetch path
`RemoteBundle.LoadPackage` / `LoadPackageMetadata` / `downloadPkgFromRemoteBundle`).

The Go code is shallowly embedded: external collaborators (the ORAS registry
client, the local blob cache, the filesystem, serializers and the integrity
validator) are fields of an environment record returning `Except String`
results, and each embedded function returns, besides its Go result, a trace of
the observable actions it performed (network pushes, streams, mounts, channel
signals), so that ordering and absence of actions can be stated.
-/

namespace UDS

/-- OCI content descriptor (ocispec.Descriptor): digest, media type, size and
the string-keyed annotations map (modelled as an association list). -/
structure Descriptor where
  mediaType   : String
  digest      : String
  size        : Int
  annotations : List (String × String)
deriving DecidableEq, Repr

/-- Reading `d.Annotations[key]` in Go: a missing key yields the empty string. -/
def Descriptor.annot (d : Descriptor) (key : String) : String :=
  (d.annotations.lookup key).getD ""

/-- The zero `ocispec.Descriptor{}` value. -/
def zeroDescriptor : Descriptor :=
  { mediaType := "", digest := "", size := 0, annotations := [] }

/-- Modelled from the spec: zarf's `oci.IsEmptyDescriptor` (external
collaborator, not in src) — a descriptor equal to the zero value stands for
"not found". -/
def IsEmptyDescriptor (d : Descriptor) : Bool :=
  d == zeroDescriptor

/-- OCI manifest as zarf's `oci.ZarfOCIManifest` presents it to this code:
a config descriptor and an ordered layer list. -/
structure ZarfManifest where
  config : Descriptor
  layers : List Descriptor
deriving DecidableEq, Repr

/-- `ocispec.AnnotationTitle`. -/
def AnnotationTitle : String := "org.opencontainers.image.title"

/-- `ocispec.AnnotationDescription`. -/
def AnnotationDescription : String := "org.opencontainers.image.description"

/-- `ocispec.AnnotationURL`. -/
def AnnotationURL : String := "org.opencontainers.image.url"

/-- `ocispec.AnnotationAuthors`. -/
def AnnotationAuthors : String := "org.opencontainers.image.authors"

/-- `ocispec.AnnotationDocumentation`. -/
def AnnotationDocumentation : String := "org.opencontainers.image.documentation"

/-- `ocispec.AnnotationSource`. -/
def AnnotationSource : String := "org.opencontainers.image.source"

/-- `ocispec.AnnotationVendor`. -/
def AnnotationVendor : String := "org.opencontainers.image.vendor"

/-- `ocispec.MediaTypeImageManifest`. -/
def MediaTypeImageManifest : String := "application/vnd.oci.image.manifest.v1+json"

/-- `ocispec.MediaTypeImageConfig`. -/
def MediaTypeImageConfig : String := "application/vnd.oci.image.config.v1+json"

/-- zarf's `oci.ZarfLayerMediaTypeBlob` (modelled constant, defined outside src). -/
def ZarfLayerMediaTypeBlob : String := "application/vnd.zarf.layer.v1.blob"

/-- The fixed bundle specification file name (`BundleYAML`, constant defined
outside src). -/
def BundleYAML : String := "uds-bundle.yaml"

/-- The fixed bundle signature file name (`BundleYAMLSignature`, constant
defined outside src). -/
def BundleYAMLSignature : String := "uds-bundle.yaml.sig"

/-- The fixed package specification file name (`config.ZarfYAML`, constant
defined outside src). -/
def ZarfYAML : String := "zarf.yaml"

/-- The fixed package checksums file name (`config.ChecksumsTxt`, constant
defined outside src). -/
def ChecksumsTxt : String := "checksums.txt"

/-- `config.BlobsDir` (constant defined outside src): the image-blobs path
fragment matched against layer titles. -/
def BlobsDir : String := "blobs"

/-- Modelled from the spec: zarf's `oci.PackageAlwaysPull` (external constant,
not in src) — the fixed list of always-pull metadata paths. -/
def PackageAlwaysPull : List String := [ZarfYAML, ChecksumsTxt, "zarf.yaml.sig"]

/-- Modelled from the spec: zarf's `Manifest.Locate` (external collaborator,
not in src) — the RootIndex lookup by exact digest or by title annotation,
returning the zero descriptor (never an error) when absent. -/
def ZarfManifest.locate (m : ZarfManifest) (pathOrDigest : String) : Descriptor :=
  (m.layers.find? fun l =>
    l.digest == pathOrDigest || l.annot AnnotationTitle == pathOrDigest).getD zeroDescriptor

/-- `sub.isPrefixOf rest` folded along a character list: Go's
`strings.Contains` on the underlying characters. -/
def listContainsSub (sub : List Char) : List Char → Bool
  | [] => sub.isEmpty
  | c :: cs => sub.isPrefixOf (c :: cs) || listContainsSub sub cs

/-- Go's `strings.Contains s sub`. -/
def strContains (s sub : String) : Bool :=
  listContainsSub sub.data s.data

/-- Go's `digest.Digest.Encoded()`: the part of `alg:encoded` after the colon
(modelled as the last colon-separated component). -/
def digestEncoded (s : String) : String :=
  ((s.splitOn ":").getLast?).getD s

/-! ## Fetch side: `RemoteBundle` (sources package half of bundle.go) -/

/-- The part of `zarfTypes.ZarfPackage` this code reads: the declared
aggregate checksum. -/
structure ZarfPkg where
  aggregateChecksum : String
deriving DecidableEq, Repr

/-- The `RemoteBundle` session state read by the embedded methods. The
mutable field `isPartial` of the Go struct is called `isPartialFlag` here;
its updated value is returned alongside the result. -/
structure RemoteBundle where
  pkgName        : String
  pkgManifestSHA : String
  tmpDir         : String
  isPartialFlag  : Bool
deriving DecidableEq, Repr

/-- Observable events of the fetch path: layer fetches, the validator call
with the partiality mode it was passed, and the synchronization points around
the concurrent progress-estimation task (`go RenderProgressBarForLocalDirWrite`,
the sends on `errChan` / `doneSaving`, and `wg.Wait()`). -/
inductive FetchEvent where
  | fetchLayer (d : Descriptor)
  | validate (partialMode : Bool)
  | progressStart
  | sendErr
  | sendDone
  | wgWait
deriving DecidableEq, Repr

/-- The external collaborators the fetch path calls: zarf's ORAS remote
(`FetchRoot`, `FetchManifest`, `FetchLayer`, blob existence), the local blob
cache, the local file store and `oras.Copy`, YAML (de)serialization, file
writes, and `sources.ValidatePackageIntegrity`. -/
structure FetchEnv where
  fetchRoot        : Except String ZarfManifest
  fetchManifest    : Descriptor → Except String ZarfManifest
  fetchLayer       : Descriptor → Except String String
  blobExists       : Descriptor → Except String Bool
  cacheExists      : String → Bool
  cacheUse         : String → String → Except String Unit
  newFileStore     : String → Except String Unit
  orasCopy         : List Descriptor → Except String Unit
  parseZarfPackage : String → Except String ZarfPkg
  writeYaml        : Except String Unit
  writeFile        : String → Except String Unit
  validate         : List Descriptor → String → Bool → Except String Unit

/-- The per-layer verification loop of `downloadPkgFromRemoteBundle`
(bundle.go: the `for _, layer := range pkgManifest.Layers` loop): checks each
declared layer's existence in the remote bundle, accumulates the present
layers (`layersInBundle`), materializes cache hits and queues the rest for
download (`layersToPull`), summing the estimated bytes. -/
def verifyLayers (env : FetchEnv) (rb : RemoteBundle) :
    List Descriptor → List Descriptor → List Descriptor → Int →
    Except String (List Descriptor × List Descriptor × Int)
  | [], layersToPull, layersInBundle, estimatedBytes =>
    .ok (layersToPull, layersInBundle, estimatedBytes)
  | layer :: rest, layersToPull, layersInBundle, estimatedBytes =>
    match env.blobExists layer with
    | .error e => .error e
    | .ok ok =>
      if ok then
        let estimatedBytes := estimatedBytes + layer.size
        let layersInBundle := layersInBundle ++ [layer]
        let digest := digestEncoded layer.digest
        if strContains (layer.annot AnnotationTitle) BlobsDir && env.cacheExists digest then
          match env.cacheUse digest (rb.tmpDir ++ "/images/" ++ BlobsDir) with
          | .error e => .error e
          | .ok _ => verifyLayers env rb rest layersToPull layersInBundle estimatedBytes
        else
          verifyLayers env rb rest (layersToPull ++ [layer]) layersInBundle estimatedBytes
      else
        verifyLayers env rb rest layersToPull layersInBundle estimatedBytes

/-- `downloadPkgFromRemoteBundle` (bundle.go): fetch the bundle root, locate
the package sub-manifest by digest (error when absent), coerce its media type
to the Zarf blob type, fetch the sub-manifest, verify which declared layers
the bundle actually holds, download the queued layers through a file store
with the concurrent progress task, and set the partiality flag when the
declared layer count exceeds the accumulated list's length. Returns the event
trace together with the Go results (present-layer descriptors and the
session's updated partiality flag). -/
def downloadPkgFromRemoteBundle (env : FetchEnv) (rb : RemoteBundle) :
    List FetchEvent × Except String (List Descriptor × Bool) :=
  match env.fetchRoot with
  | .error e => ([], .error e)
  | .ok rootManifest =>
    let located := rootManifest.locate rb.pkgManifestSHA
    if IsEmptyDescriptor located then
      ([], .error ("package " ++ rb.pkgManifestSHA ++ " does not exist in this bundle"))
    else
      let pkgManifestDesc := { located with mediaType := ZarfLayerMediaTypeBlob }
      match env.fetchManifest pkgManifestDesc with
      | .error e => ([], .error e)
      | .ok pkgManifest =>
        match verifyLayers env rb pkgManifest.layers [pkgManifestDesc] [pkgManifestDesc] 0 with
        | .error e => ([], .error e)
        | .ok (layersToPull, layersInBundle, _estimatedBytes) =>
          match env.newFileStore rb.tmpDir with
          | .error e => ([], .error e)
          | .ok _ =>
            match env.orasCopy layersToPull with
            | .error e =>
              ([FetchEvent.progressStart, FetchEvent.sendErr], .error e)
            | .ok _ =>
              let flag := rb.isPartialFlag
                  || decide (pkgManifest.layers.length > layersInBundle.length)
              ([FetchEvent.progressStart, FetchEvent.sendDone, FetchEvent.wgWait],
               .ok (layersInBundle, flag))

/-- The declared layers a given environment confirms present in the remote
bundle (the layers whose existence check answers true). -/
def presentFilter (env : FetchEnv) (layers : List Descriptor) : List Descriptor :=
  layers.filter fun l =>
    match env.blobExists l with
    | .ok b => b
    | .error _ => false

/-- The tail of `LoadPackageMetadata` once the package spec has been parsed:
the checksums loop (fetch and persist the first layer titled with the fixed
checksums file name; the zero descriptor stands in when none matches), then
`dst.SetFromLayers([pkgManifestDesc, checksumLayer])` and the final
`sources.ValidatePackageIntegrity(dst, checksum, true)` call — the literal
`true` of bundle.go line 361. -/
def loadMetadataChecksumPhase (env : FetchEnv) (pkgManifestDesc : Descriptor)
    (pkgManifest : ZarfManifest) (zarfYAML : ZarfPkg) :
    List FetchEvent × Except String Unit :=
  match pkgManifest.layers.find? (fun l => l.annot AnnotationTitle == ChecksumsTxt) with
  | none =>
    ([FetchEvent.validate true],
     env.validate [pkgManifestDesc, zeroDescriptor] zarfYAML.aggregateChecksum true)
  | some layer =>
    match env.fetchLayer layer with
    | .error e => ([FetchEvent.fetchLayer layer], .error e)
    | .ok checksumBytes =>
      match env.writeFile checksumBytes with
      | .error e => ([FetchEvent.fetchLayer layer], .error e)
      | .ok _ =>
        ([FetchEvent.fetchLayer layer, FetchEvent.validate true],
         env.validate [pkgManifestDesc, layer] zarfYAML.aggregateChecksum true)

/-- `LoadPackageMetadata` (bundle.go): fetch the bundle root; locate the
package sub-manifest by digest (not-found error when the zero descriptor comes
back); fetch the sub-manifest (its error is not checked in the Go code — a nil
manifest would fault there; the embedding surfaces it as the error); scan its
layers for the one titled with the fixed package-spec file name, keeping the
zero descriptor when none matches; fetch that layer, parse it, persist it
(the write's error is discarded, as in the Go code); then run the checksums
phase and the final integrity validation. -/
def LoadPackageMetadata (env : FetchEnv) (rb : RemoteBundle) :
    List FetchEvent × Except String Unit :=
  match env.fetchRoot with
  | .error e => ([], .error e)
  | .ok root =>
    let pkgManifestDesc := root.locate rb.pkgManifestSHA
    if IsEmptyDescriptor pkgManifestDesc then
      ([], .error ("zarf package " ++ rb.pkgName ++ " with manifest sha "
                   ++ rb.pkgManifestSHA ++ " not found"))
    else
      match env.fetchManifest pkgManifestDesc with
      | .error e => ([], .error e)
      | .ok pkgManifest =>
        let zarfYAMLDesc :=
          (pkgManifest.layers.find? (fun l => l.annot AnnotationTitle == ZarfYAML)).getD
            zeroDescriptor
        match env.fetchLayer zarfYAMLDesc with
        | .error e => ([FetchEvent.fetchLayer zarfYAMLDesc], .error e)
        | .ok zarfYAMLBytes =>
          match env.parseZarfPackage zarfYAMLBytes with
          | .error e => ([FetchEvent.fetchLayer zarfYAMLDesc], .error e)
          | .ok zarfYAML =>
            let _ := env.writeYaml
            let phase := loadMetadataChecksumPhase env pkgManifestDesc pkgManifest zarfYAML
            (FetchEvent.fetchLayer zarfYAMLDesc :: phase.1, phase.2)

/-! ## Publish side: `Bundle` (bundler package half of bundle.go) -/

/-- The human-readable bundle metadata (`types.UDSMetadata`) fields bundle.go
reads. -/
structure UDSMetadata where
  name          : String
  description   : String
  url           : String
  authors       : String
  documentation : String
  source        : String
  vendor        : String
  architecture  : String
deriving DecidableEq, Repr

/-- `types.UDSBuildData` fields bundle.go reads. -/
structure UDSBuildData where
  architecture : String
deriving DecidableEq, Repr

/-- One entry of `bundle.ZarfPackages` (`types.ZarfPackage` reference). -/
structure ZarfPackageRef where
  repository         : String
  ref                : String
  optionalComponents : List String
deriving DecidableEq, Repr

/-- `types.UDSBundle` as bundle.go reads it. -/
structure UDSBundle where
  metadata     : UDSMetadata
  build        : UDSBuildData
  zarfPackages : List ZarfPackageRef
deriving DecidableEq, Repr

/-- `oci.ConfigPartial`: the config blob's JSON content. -/
structure ConfigPartial where
  architecture : String
  ociVersion   : String
  annotations  : List (String × String)
deriving DecidableEq, Repr

/-- The OCI manifest bundle.go assembles (`ocispec.Manifest`). -/
structure OCIManifest where
  schemaVersion : Nat
  config        : Descriptor
  layers        : List Descriptor
  annotations   : List (String × String)
deriving DecidableEq, Repr

/-- Observable network actions of the publish path: blob pushes (`PushLayer`),
single-blob streaming copies performed inside `oci.CopyPackage`, blob mount
requests (`Mount`), and the final manifest push (`PushReference`). -/
inductive PubAction where
  | pushLayer (mediaType : String) (d : Descriptor)
  | stream (digest : String)
  | mountLayer (digest : String)
  | pushManifest (reference : String)
deriving DecidableEq, Repr

/-- One source-package remote (`oci.NewOrasRemote(url)`): its registry and
repository reference, `FetchRoot`, `LayersFromRequestedComponents`, the
descriptors its repository holds (walked by `oci.CopyPackage`), and the
outcome of that copy. -/
structure PkgRemote where
  registry        : String
  repository      : String
  fetchRoot       : Except String ZarfManifest
  layersFromRequestedComponents : List String → Except String (List Descriptor)
  repoDescriptors : List Descriptor
  copyResult      : Except String Unit

/-- The external collaborators the publish path calls: remote construction,
the destination registry's blob push / blob mount / manifest push, and the
serializers. -/
structure PubEnv where
  destRegistry      : String
  destReference     : String
  newRemote         : String → Except String PkgRemote
  pushLayer         : String → String → Except String Descriptor
  mount             : Descriptor → String → Except String Unit
  pushManifestRef   : Descriptor → String → Except String Unit
  marshalManifest   : ZarfManifest → Except String String
  marshalBundle     : UDSBundle → Except String String
  marshalConfig     : ConfigPartial → Except String String
  marshalOCIManifest : OCIManifest → Except String String

/-- Modelled from the spec: `content.NewDescriptorFromBytes` (external, ORAS)
computes the canonical descriptor of serialized bytes — content-addressed
digest and byte size. -/
def NewDescriptorFromBytes (mediaType : String) (b : String) : Descriptor :=
  { mediaType := mediaType, digest := "sha256:" ++ b, size := b.length, annotations := [] }

/-- Modelled from the spec: `oci.CopyPackage` (external zarf collaborator)
walks the source repository filtered to exactly the digests the predicate
accepts, fetching each matched blob and pushing it to the destination
(bounded by the configured concurrency). -/
def copyPackageActions (repoDescs : List Descriptor) (keep : Descriptor → Bool) :
    List PubAction :=
  (repoDescs.filter keep).map fun d => PubAction.stream d.digest

/-- The mount loop of the same-registry branch (bundle.go: the
`for _, layer := range layersToCopy` loop issuing `r.Repo().Mount`): each
mount request is recorded; the first failing request ends the loop with its
error, mounting nothing further. -/
def mountLoop (env : PubEnv) (fromRepo : String) :
    List Descriptor → List PubAction × Except String Unit
  | [] => ([], .ok ())
  | layer :: rest =>
    match env.mount layer fromRepo with
    | .error e => ([PubAction.mountLayer layer.digest], .error e)
    | .ok _ =>
      let next := mountLoop env fromRepo rest
      (PubAction.mountLayer layer.digest :: next.1, next.2)

/-- The transfer step of `Bundle` (bundle.go lines 75–112): when the package
registry differs from the destination registry, stream-copy the source
repository filtered to the digests of `layersToCopy`; otherwise blob-mount
every layer of `layersToCopy` plus the source root's config descriptor. -/
def transferPhase (env : PubEnv) (remote : PkgRemote) (root : ZarfManifest)
    (layersToCopy : List Descriptor) : List PubAction × Except String Unit :=
  if remote.registry != env.destRegistry then
    let filterLayers := fun d => layersToCopy.any fun layer => layer.digest == d.digest
    (copyPackageActions remote.repoDescriptors filterLayers, remote.copyResult)
  else
    mountLoop env remote.repository (layersToCopy ++ [root.config])

/-- The per-package body of `Bundle`'s loop: build the remote, fetch and push
the package's root manifest as a blob, coerce the returned descriptor's media
type to image-manifest, select the component layers plus the non-empty
always-pull metadata layers, and run the transfer step. Returns the coerced
sub-manifest descriptor appended to the bundle manifest's layer list. -/
def processPackage (env : PubEnv) (pkg : ZarfPackageRef) :
    List PubAction × Except String Descriptor :=
  match env.newRemote (pkg.repository ++ ":" ++ pkg.ref) with
  | .error e => ([], .error e)
  | .ok remote =>
    match remote.fetchRoot with
    | .error e => ([], .error e)
    | .ok root =>
      match env.marshalManifest root with
      | .error e => ([], .error e)
      | .ok manifestBytes =>
        match env.pushLayer manifestBytes ZarfLayerMediaTypeBlob with
        | .error e => ([], .error e)
        | .ok pushed =>
          let manifestDesc := { pushed with mediaType := MediaTypeImageManifest }
          let tr0 := [PubAction.pushLayer ZarfLayerMediaTypeBlob pushed]
          match remote.layersFromRequestedComponents pkg.optionalComponents with
          | .error e => (tr0, .error e)
          | .ok layersFromComponents =>
            let metadataLayers :=
              (PackageAlwaysPull.map root.locate).filter fun layer => !IsEmptyDescriptor layer
            let layersToCopy := layersFromComponents ++ metadataLayers
            match transferPhase env remote root layersToCopy with
            | (tr, .error e) => (tr0 ++ tr, .error e)
            | (tr, .ok _) => (tr0 ++ tr, .ok manifestDesc)

/-- The package loop of `Bundle`: processes each `ZarfPackages` entry in list
order, collecting the sub-manifest descriptors appended to the bundle
manifest's layers; the first failing package aborts with its error. -/
def processPackages (env : PubEnv) : List ZarfPackageRef →
    List PubAction × Except String (List Descriptor)
  | [] => ([], .ok [])
  | pkg :: rest =>
    match processPackage env pkg with
    | (tr, .error e) => (tr, .error e)
    | (tr, .ok d) =>
      match processPackages env rest with
      | (tr2, .error e) => (tr ++ tr2, .error e)
      | (tr2, .ok ds) => (tr ++ tr2, .ok (d :: ds))

/-- The config-blob annotations built inside `pushManifestConfigFromMetadata`
(bundle.go lines 190–193): title and description, both unconditionally. -/
def configAnnotationsFromMetadata (metadata : UDSMetadata) : List (String × String) :=
  [(AnnotationTitle, metadata.name), (AnnotationDescription, metadata.description)]

/-- `pushManifestConfigFromMetadata` (bundle.go): marshal the config content
(build architecture, OCI version 1.0.1, title/description annotations) and
push it as an image-config blob. -/
def pushManifestConfigFromMetadata (env : PubEnv) (metadata : UDSMetadata)
    (build : UDSBuildData) : List PubAction × Except String Descriptor :=
  let manifestConfig : ConfigPartial :=
    { architecture := build.architecture
      ociVersion := "1.0.1"
      annotations := configAnnotationsFromMetadata metadata }
  match env.marshalConfig manifestConfig with
  | .error e => ([], .error e)
  | .ok bytes =>
    match env.pushLayer bytes MediaTypeImageConfig with
    | .error e => ([], .error e)
    | .ok d => ([PubAction.pushLayer MediaTypeImageConfig d], .ok d)

/-- `manifestAnnotationsFromMetadata` (bundle.go): the description
unconditionally, then URL, authors, documentation, source and vendor, each
only when non-empty. -/
def manifestAnnotationsFromMetadata (metadata : UDSMetadata) : List (String × String) :=
  let annotations := [(AnnotationDescription, metadata.description)]
  let annotations := if metadata.url != "" then
      annotations ++ [(AnnotationURL, metadata.url)]
    else annotations
  let annotations := if metadata.authors != "" then
      annotations ++ [(AnnotationAuthors, metadata.authors)]
    else annotations
  let annotations := if metadata.documentation != "" then
      annotations ++ [(AnnotationDocumentation, metadata.documentation)]
    else annotations
  let annotations := if metadata.source != "" then
      annotations ++ [(AnnotationSource, metadata.source)]
    else annotations
  if metadata.vendor != "" then
    annotations ++ [(AnnotationVendor, metadata.vendor)]
  else annotations

/-- The signature push of `Bundle` (bundle.go lines 136–146): when a
non-empty signature is supplied, push it as a blob and return the descriptor
annotated with the fixed signature file name; otherwise no layer. -/
def pushSignature (env : PubEnv) (signature : String) :
    List PubAction × Except String (List Descriptor) :=
  if signature.length > 0 then
    match env.pushLayer signature ZarfLayerMediaTypeBlob with
    | .error e => ([], .error e)
    | .ok pushed =>
      ([PubAction.pushLayer ZarfLayerMediaTypeBlob pushed],
       .ok [{ pushed with annotations := [(AnnotationTitle, BundleYAMLSignature)] }])
  else ([], .ok [])

/-- The body of `Bundle` after the architecture check: the package loop, the
bundle-metadata blob push (annotated with the fixed bundle-spec file name),
the optional signature push, the config push, and the assembly and push of the
final manifest (schema version 2). A `pushManifest` action records the push
attempt of the assembled manifest. -/
def bundleBody (env : PubEnv) (bundle : UDSBundle) (signature : String) :
    List PubAction × Except String OCIManifest :=
  match processPackages env bundle.zarfPackages with
  | (tr, .error e) => (tr, .error e)
  | (tr, .ok subDescs) =>
    match env.marshalBundle bundle with
    | .error e => (tr, .error e)
    | .ok bundleYamlBytes =>
      match env.pushLayer bundleYamlBytes ZarfLayerMediaTypeBlob with
      | .error e => (tr, .error e)
      | .ok pushed =>
        let bundleYamlDesc := { pushed with annotations := [(AnnotationTitle, BundleYAML)] }
        let tr := tr ++ [PubAction.pushLayer ZarfLayerMediaTypeBlob pushed]
        match pushSignature env signature with
        | (trSig, .error e) => (tr ++ trSig, .error e)
        | (trSig, .ok sigDescs) =>
          let tr := tr ++ trSig
          match pushManifestConfigFromMetadata env bundle.metadata bundle.build with
          | (trCfg, .error e) => (tr ++ trCfg, .error e)
          | (trCfg, .ok configDesc) =>
            let tr := tr ++ trCfg
            let manifest : OCIManifest :=
              { schemaVersion := 2
                config := configDesc
                layers := subDescs ++ [bundleYamlDesc] ++ sigDescs
                annotations := manifestAnnotationsFromMetadata bundle.metadata }
            match env.marshalOCIManifest manifest with
            | .error e => (tr, .error e)
            | .ok b =>
              let expected := NewDescriptorFromBytes MediaTypeImageManifest b
              let tr := tr ++ [PubAction.pushManifest env.destReference]
              match env.pushManifestRef expected env.destReference with
              | .error e => (tr, .error ("failed to push manifest: " ++ e))
              | .ok _ => (tr, .ok manifest)

/-- The publish error type: the pre-flight architecture validation error,
distinct from every collaborator error. -/
inductive BundleErr where
  | archRequired
  | env (e : String)
deriving DecidableEq, Repr

/-- `Bundle` (bundle.go): the pre-flight architecture check — before any
network action — then the publish body. -/
def Bundle (env : PubEnv) (bundle : UDSBundle) (signature : String) :
    List PubAction × Except BundleErr OCIManifest :=
  if bundle.metadata.architecture == "" then
    ([], .error BundleErr.archRequired)
  else
    match bundleBody env bundle signature with
    | (tr, .error e) => (tr, .error (BundleErr.env e))
    | (tr, .ok m) => (tr, .ok m)

/-! ## Helper lemmas -/

/-- A successful layer-verification loop extends the accumulated
`layersInBundle` by exactly the declared layers whose existence check
answered true, in declaration order. -/
theorem verifyLayers_inBundle (env : FetchEnv) (rb : RemoteBundle) :
    ∀ (ls tp ib : List Descriptor) (est : Int) (tp2 ib2 : List Descriptor) (est2 : Int),
      verifyLayers env rb ls tp ib est = .ok (tp2, ib2, est2) →
      ib2 = ib ++ presentFilter env ls := by
  intro ls
  induction ls with
  | nil =>
    intro tp ib est tp2 ib2 est2 h
    simp only [verifyLayers, Except.ok.injEq, Prod.mk.injEq] at h
    simp [presentFilter, ← h.2.1]
  | cons l rest ih =>
    intro tp ib est tp2 ib2 est2 h
    simp only [verifyLayers] at h
    split at h
    · simp at h
    · rename_i b hex
      cases b with
      | false =>
        rw [if_neg (by simp)] at h
        rw [ih tp ib est tp2 ib2 est2 h]
        simp [presentFilter, List.filter_cons, hex]
      | true =>
        rw [if_pos rfl] at h
        have hpresent : presentFilter env (l :: rest) = l :: presentFilter env rest := by
          simp [presentFilter, List.filter_cons, hex]
        by_cases hc :
            (strContains (l.annot AnnotationTitle) BlobsDir
              && env.cacheExists (digestEncoded l.digest)) = true
        · rw [if_pos hc] at h
          split at h
          · simp at h
          · rw [ih tp (ib ++ [l]) (est + l.size) tp2 ib2 est2 h, hpresent]
            simp
        · rw [if_neg hc] at h
          rw [ih (tp ++ [l]) (ib ++ [l]) (est + l.size) tp2 ib2 est2 h, hpresent]
          simp

/-- Every event of a successful `loadMetadataChecksumPhase` trace that is a
validator call passes the partial mode `true`, and a successful phase did call
the validator with `true`. -/
theorem loadMetadataChecksumPhase_validate (env : FetchEnv) (d : Descriptor)
    (pm : ZarfManifest) (z : ZarfPkg) (tr : List FetchEvent) (res : Except String Unit)
    (h : loadMetadataChecksumPhase env d pm z = (tr, res)) :
    (∀ b, FetchEvent.validate b ∈ tr → b = true)
    ∧ (res = .ok () → FetchEvent.validate true ∈ tr) := by
  simp only [loadMetadataChecksumPhase] at h
  split at h
  · rw [Prod.mk.injEq] at h
    constructor
    · intro b hb; rw [← h.1] at hb; simpa using hb
    · intro _; rw [← h.1]; simp
  · split at h
    · rw [Prod.mk.injEq] at h
      constructor
      · intro b hb; rw [← h.1] at hb; simp at hb
      · intro hok; rw [← h.2] at hok; simp at hok
    · split at h
      · rw [Prod.mk.injEq] at h
        constructor
        · intro b hb; rw [← h.1] at hb; simp at hb
        · intro hok; rw [← h.2] at hok; simp at hok
      · rw [Prod.mk.injEq] at h
        constructor
        · intro b hb; rw [← h.1] at hb; simpa using hb
        · intro _; rw [← h.1]; simp

/-- Every action of the streaming-copy phase is a single-blob stream. -/
theorem copyPackageActions_only_streams (repoDescs : List Descriptor)
    (keep : Descriptor → Bool) :
    ∀ a ∈ copyPackageActions repoDescs keep, ∃ dg, a = PubAction.stream dg := by
  intro a ha
  rcases List.mem_map.mp ha with ⟨d, _, hd⟩
  exact ⟨d.digest, hd.symm⟩

/-- Every action of the mount loop is a mount request. -/
theorem mountLoop_only_mounts (env : PubEnv) (repo : String) :
    ∀ (ls : List Descriptor), ∀ a ∈ (mountLoop env repo ls).1,
      ∃ dg, a = PubAction.mountLayer dg := by
  intro ls
  induction ls with
  | nil => intro a ha; simp [mountLoop] at ha
  | cons l rest ih =>
    intro a ha
    simp only [mountLoop] at ha
    split at ha
    · rcases List.mem_singleton.mp ha with rfl
      exact ⟨l.digest, rfl⟩
    · rcases List.mem_cons.mp ha with rfl | htail
      · exact ⟨l.digest, rfl⟩
      · exact ih a htail

/-- A mount loop that succeeds issued one mount request per layer, in list
order. -/
theorem mountLoop_ok_trace (env : PubEnv) (repo : String) :
    ∀ (ls : List Descriptor) (tr : List PubAction),
      mountLoop env repo ls = (tr, .ok ()) →
      tr = ls.map fun l => PubAction.mountLayer l.digest := by
  intro ls
  induction ls with
  | nil =>
    intro tr h
    simp only [mountLoop, Prod.mk.injEq] at h
    simp [← h.1]
  | cons l rest ih =>
    intro tr h
    simp only [mountLoop] at h
    split at h
    · simp at h
    · rw [Prod.mk.injEq] at h
      have hrec : mountLoop env repo rest
          = ((mountLoop env repo rest).1, (mountLoop env repo rest).2) := rfl
      rw [h.2] at hrec
      rw [← h.1, ih _ hrec]
      simp

/-- The mount loop stops at the first failing mount request: the requests
issued are exactly those for the prefix of layers that mounted successfully
plus the failing one, and the loop's result is that mount's error. -/
theorem mountLoop_first_failure (env : PubEnv) (repo : String) :
    ∀ (pre : List Descriptor) (l : Descriptor) (post : List Descriptor) (e : String),
      (∀ x ∈ pre, env.mount x repo = .ok ()) →
      env.mount l repo = .error e →
      mountLoop env repo (pre ++ l :: post)
        = ((pre.map fun d => PubAction.mountLayer d.digest)
             ++ [PubAction.mountLayer l.digest], .error e) := by
  intro pre
  induction pre with
  | nil =>
    intro l post e _ hl
    simp [mountLoop, hl]
  | cons p rest ih =>
    intro l post e hpre hl
    have hp := hpre p (by simp)
    simp only [List.cons_append, mountLoop, hp, List.append_eq]
    rw [ih l post e (fun x hx => hpre x (by simp [hx])) hl]
    simp

/-- Every action of the transfer phase is a stream or a mount request — never
a blob push or a manifest push. -/
theorem transferPhase_actions (env : PubEnv) (remote : PkgRemote) (root : ZarfManifest)
    (ltc : List Descriptor) :
    ∀ a ∈ (transferPhase env remote root ltc).1,
      (∃ dg, a = PubAction.stream dg) ∨ (∃ dg, a = PubAction.mountLayer dg) := by
  simp only [transferPhase]
  split
  · intro a ha
    exact Or.inl (copyPackageActions_only_streams _ _ a ha)
  · intro a ha
    exact Or.inr (mountLoop_only_mounts env remote.repository _ a ha)

/-- A successful per-package step returns the sub-manifest descriptor with
its media type coerced to image-manifest. -/
theorem processPackage_ok_mediaType (env : PubEnv) (pkg : ZarfPackageRef)
    (tr : List PubAction) (d : Descriptor)
    (h : processPackage env pkg = (tr, .ok d)) :
    d.mediaType = MediaTypeImageManifest := by
  simp only [processPackage] at h
  split at h
  · simp at h
  · split at h
    · simp at h
    · split at h
      · simp at h
      · split at h
        · simp at h
        · split at h
          · simp at h
          · split at h
            · simp at h
            · rw [Prod.mk.injEq, Except.ok.injEq] at h
              rw [← h.2]

/-- The per-package step never attempts a manifest push. -/
theorem processPackage_no_manifest_push (env : PubEnv) (pkg : ZarfPackageRef) :
    ∀ a ∈ (processPackage env pkg).1, ∀ r, a ≠ PubAction.pushManifest r := by
  simp only [processPackage]
  split
  · simp
  · split
    · simp
    · split
      · simp
      · split
        · simp
        · split
          · intro a ha r
            rcases List.mem_singleton.mp ha with rfl
            simp
          · split
            · rename_i htrans
              intro a ha r
              rcases List.mem_append.mp ha with hhead | htail
              · rcases List.mem_singleton.mp hhead with rfl
                simp
              · have := transferPhase_actions env _ _ _ a (by rw [htrans]; exact htail)
                rcases this with ⟨dg, rfl⟩ | ⟨dg, rfl⟩ <;> simp
            · rename_i htrans
              intro a ha r
              rcases List.mem_append.mp ha with hhead | htail
              · rcases List.mem_singleton.mp hhead with rfl
                simp
              · have := transferPhase_actions env _ _ _ a (by rw [htrans]; exact htail)
                rcases this with ⟨dg, rfl⟩ | ⟨dg, rfl⟩ <;> simp

/-- A successful per-package step returns exactly the descriptor obtained by
fetching that package's root manifest, pushing its serialization as a blob,
and coercing the returned descriptor's media type to image-manifest. -/
theorem processPackage_ok_desc (env : PubEnv) (pkg : ZarfPackageRef)
    (tr : List PubAction) (d : Descriptor)
    (h : processPackage env pkg = (tr, .ok d)) :
    ∃ remote root manifestBytes pushed,
      env.newRemote (pkg.repository ++ ":" ++ pkg.ref) = .ok remote
      ∧ remote.fetchRoot = .ok root
      ∧ env.marshalManifest root = .ok manifestBytes
      ∧ env.pushLayer manifestBytes ZarfLayerMediaTypeBlob = .ok pushed
      ∧ d = { pushed with mediaType := MediaTypeImageManifest } := by
  simp only [processPackage] at h
  split at h
  · simp at h
  · rename_i remote hremote
    split at h
    · simp at h
    · rename_i root hroot
      split at h
      · simp at h
      · rename_i manifestBytes hbytes
        split at h
        · simp at h
        · rename_i pushed hpush
          split at h
          · simp at h
          · split at h
            · simp at h
            · rw [Prod.mk.injEq, Except.ok.injEq] at h
              exact ⟨remote, root, manifestBytes, pushed,
                     hremote, hroot, hbytes, hpush, h.2.symm⟩

/-- A successful package loop pairs the packages with the returned
descriptors positionally: the descriptor at every index is the one the
per-package step produced for the package at that same index. -/
theorem processPackages_ok_index (env : PubEnv) :
    ∀ (pkgs : List ZarfPackageRef) (tr : List PubAction) (ds : List Descriptor),
      processPackages env pkgs = (tr, .ok ds) →
      ∀ (i : Nat) (hi : i < pkgs.length) (hj : i < ds.length),
        ∃ trp, processPackage env (pkgs.get ⟨i, hi⟩) = (trp, .ok (ds.get ⟨i, hj⟩)) := by
  intro pkgs
  induction pkgs with
  | nil =>
    intro tr ds h i hi hj
    exact absurd hi (by simp)
  | cons pkg rest ih =>
    intro tr ds h i hi hj
    simp only [processPackages] at h
    split at h
    · simp at h
    · rename_i tr0 d hpkg
      split at h
      · simp at h
      · rename_i tr2 ds2 hrest
        rw [Prod.mk.injEq, Except.ok.injEq] at h
        obtain ⟨h1, h2⟩ := h
        subst h2
        cases i with
        | zero => exact ⟨tr0, hpkg⟩
        | succ j =>
          have hi2 : j < rest.length := by simpa using hi
          have hj2 : j < ds2.length := by simpa using hj
          obtain ⟨trp, hp⟩ := ih tr2 ds2 hrest j hi2 hj2
          exact ⟨trp, hp⟩

/-- A successful package loop returns one sub-manifest descriptor per
package, each with the image-manifest media type. -/
theorem processPackages_ok (env : PubEnv) :
    ∀ (pkgs : List ZarfPackageRef) (tr : List PubAction) (ds : List Descriptor),
      processPackages env pkgs = (tr, .ok ds) →
      ds.length = pkgs.length ∧ ∀ d ∈ ds, d.mediaType = MediaTypeImageManifest := by
  intro pkgs
  induction pkgs with
  | nil =>
    intro tr ds h
    simp only [processPackages, Prod.mk.injEq, Except.ok.injEq] at h
    simp [← h.2]
  | cons pkg rest ih =>
    intro tr ds h
    simp only [processPackages] at h
    split at h
    · simp at h
    · rename_i tr0 d hpkg
      split at h
      · simp at h
      · rename_i tr2 ds2 hrest
        rw [Prod.mk.injEq, Except.ok.injEq] at h
        have h1 := processPackage_ok_mediaType env pkg tr0 d hpkg
        have h2 := ih tr2 ds2 hrest
        rw [← h.2]
        refine ⟨by simp [h2.1], ?_⟩
        intro x hx
        rcases List.mem_cons.mp hx with rfl | hxs
        · exact h1
        · exact h2.2 x hxs

/-- The package loop never attempts a manifest push. -/
theorem processPackages_no_manifest_push (env : PubEnv) :
    ∀ (pkgs : List ZarfPackageRef) (tr : List PubAction)
      (res : Except String (List Descriptor)),
      processPackages env pkgs = (tr, res) →
      ∀ a ∈ tr, ∀ r, a ≠ PubAction.pushManifest r := by
  intro pkgs
  induction pkgs with
  | nil =>
    intro tr res h a ha
    rw [processPackages, Prod.mk.injEq] at h
    rw [← h.1] at ha
    simp at ha
  | cons pkg rest ih =>
    intro tr res h a ha r
    simp only [processPackages] at h
    split at h
    · rename_i tr0 e hpkg
      rw [Prod.mk.injEq] at h
      rw [← h.1] at ha
      exact processPackage_no_manifest_push env pkg a (by rw [hpkg]; exact ha) r
    · rename_i tr0 d hpkg
      split at h
      · rename_i tr2 e hrest
        rw [Prod.mk.injEq] at h
        rw [← h.1] at ha
        rcases List.mem_append.mp ha with h0 | h2
        · exact processPackage_no_manifest_push env pkg a (by rw [hpkg]; exact h0) r
        · exact ih tr2 (.error e) hrest a h2 r
      · rename_i tr2 ds2 hrest
        rw [Prod.mk.injEq] at h
        rw [← h.1] at ha
        rcases List.mem_append.mp ha with h0 | h2
        · exact processPackage_no_manifest_push env pkg a (by rw [hpkg]; exact h0) r
        · exact ih tr2 (.ok ds2) hrest a h2 r

/-- When the packages before some failing package all succeed and that
package's step fails, the whole loop returns the successful prefix's actions
followed by the failing package's actions, with the failing step's error. -/
theorem processPackages_append_failure (env : PubEnv) :
    ∀ (pkgs1 : List ZarfPackageRef) (pkg : ZarfPackageRef) (pkgs2 : List ZarfPackageRef)
      (tr1 : List PubAction) (ds1 : List Descriptor) (trp : List PubAction) (e : String),
      processPackages env pkgs1 = (tr1, .ok ds1) →
      processPackage env pkg = (trp, .error e) →
      processPackages env (pkgs1 ++ pkg :: pkgs2) = (tr1 ++ trp, .error e) := by
  intro pkgs1
  induction pkgs1 with
  | nil =>
    intro pkg pkgs2 tr1 ds1 trp e h1 hp
    rw [processPackages, Prod.mk.injEq] at h1
    simp only [List.nil_append, processPackages, hp]
    rw [← h1.1]
    simp
  | cons q rest ih =>
    intro pkg pkgs2 tr1 ds1 trp e h1 hp
    simp only [processPackages] at h1
    split at h1
    · simp at h1
    · rename_i trq dq hq
      split at h1
      · simp at h1
      · rename_i tr2 ds2 hrest
        rw [Prod.mk.injEq, Except.ok.injEq] at h1
        simp only [List.cons_append, processPackages, hq, List.append_eq]
        rw [ih pkg pkgs2 tr2 ds2 trp e hrest hp]
        rw [← h1.1]
        simp

/-- A successful signature push returns no layer exactly when the supplied
signature is empty, and otherwise one layer titled with the fixed signature
file name. -/
theorem pushSignature_ok (env : PubEnv) (s : String) (trS : List PubAction)
    (sigDescs : List Descriptor) (h : pushSignature env s = (trS, .ok sigDescs)) :
    (s.length = 0 ∧ sigDescs = [])
    ∨ (0 < s.length ∧ ∃ sd, sigDescs = [sd]
        ∧ sd.annot AnnotationTitle = BundleYAMLSignature) := by
  simp only [pushSignature] at h
  split at h
  · rename_i hpos
    split at h
    · simp at h
    · rename_i pushed hpush
      rw [Prod.mk.injEq, Except.ok.injEq] at h
      right
      exact ⟨hpos, { pushed with annotations := [(AnnotationTitle, BundleYAMLSignature)] },
             h.2.symm, by simp [Descriptor.annot]⟩
  · rename_i hneg
    rw [Prod.mk.injEq, Except.ok.injEq] at h
    exact Or.inl ⟨by omega, h.2.symm⟩

/-- A successful publish body pushed a manifest whose schema version is 2 and
whose layer list is the sub-manifest descriptors in package order, then the
bundle-metadata blob titled with the fixed bundle-spec file name, then the
signature blob (titled with the fixed signature file name) exactly when a
non-empty signature was supplied. -/
theorem bundleBody_ok_shape (env : PubEnv) (bundle : UDSBundle) (signature : String)
    (tr : List PubAction) (m : OCIManifest)
    (h : bundleBody env bundle signature = (tr, .ok m)) :
    m.schemaVersion = 2
    ∧ ∃ trP subDescs bundleYamlDesc sigDescs,
        processPackages env bundle.zarfPackages = (trP, .ok subDescs)
        ∧ bundleYamlDesc.annot AnnotationTitle = BundleYAML
        ∧ m.layers = subDescs ++ [bundleYamlDesc] ++ sigDescs
        ∧ ((signature.length = 0 ∧ sigDescs = [])
           ∨ (0 < signature.length ∧ ∃ sd, sigDescs = [sd]
                ∧ sd.annot AnnotationTitle = BundleYAMLSignature)) := by
  simp only [bundleBody] at h
  split at h
  · simp at h
  · rename_i trP subDescs hP
    split at h
    · simp at h
    · rename_i bundleYamlBytes hby
      split at h
      · simp at h
      · rename_i pushed hpush
        split at h
        · simp at h
        · rename_i trSig sigDescs hsig
          split at h
          · simp at h
          · rename_i trCfg configDesc hcfg
            split at h
            · simp at h
            · rename_i b hb
              split at h
              · simp at h
              · rw [Prod.mk.injEq, Except.ok.injEq] at h
                rw [← h.2]
                refine ⟨rfl, trP, subDescs,
                  { pushed with annotations := [(AnnotationTitle, BundleYAML)] },
                  sigDescs, hP, by simp [Descriptor.annot], rfl,
                  pushSignature_ok env signature trSig sigDescs hsig⟩

/-- A manifest push is attempted only after every package's processing
succeeded. -/
theorem bundleBody_manifest_push_requires_packages (env : PubEnv) (bundle : UDSBundle)
    (signature : String) (tr : List PubAction) (res : Except String OCIManifest)
    (h : bundleBody env bundle signature = (tr, res)) (r : String)
    (hmem : PubAction.pushManifest r ∈ tr) :
    ∃ trP ds, processPackages env bundle.zarfPackages = (trP, .ok ds) := by
  simp only [bundleBody] at h
  split at h
  · rename_i trP e hP
    rw [Prod.mk.injEq] at h
    rw [← h.1] at hmem
    exact absurd rfl
      (processPackages_no_manifest_push env bundle.zarfPackages trP (.error e) hP
        (PubAction.pushManifest r) hmem r)
  · rename_i trP ds hP
    exact ⟨trP, ds, hP⟩

/-! ## Concrete publish environments -/

/-- A layer of the concrete source package. -/
def pubLayer : Descriptor :=
  { mediaType := ZarfLayerMediaTypeBlob, digest := "sha256:l1", size := 3, annotations := [] }

/-- The root manifest of the concrete source package. -/
def pubRoot : ZarfManifest :=
  { config := { mediaType := MediaTypeImageConfig, digest := "sha256:cfg", size := 2,
                annotations := [] }
    layers := [pubLayer] }

/-- A source remote living on the same registry as the destination. -/
def sameRegRemote : PkgRemote :=
  { registry := "reg.example"
    repository := "pkgs/alpha"
    fetchRoot := .ok pubRoot
    layersFromRequestedComponents := fun _ => .ok [pubLayer]
    repoDescriptors := [pubLayer]
    copyResult := .ok () }

/-- A source remote living on a different registry. -/
def crossRegRemote : PkgRemote :=
  { sameRegRemote with registry := "other.example" }

/-- A publish environment in which every collaborator succeeds; the
destination registry is the one of `sameRegRemote`. -/
def happyPubEnv : PubEnv :=
  { destRegistry := "reg.example"
    destReference := "reg.example/bundle:0.0.1"
    newRemote := fun _ => .ok sameRegRemote
    pushLayer := fun b mt =>
      .ok { mediaType := mt, digest := "sha256:" ++ b, size := (b.length : Int),
            annotations := [] }
    mount := fun _ _ => .ok ()
    pushManifestRef := fun _ _ => .ok ()
    marshalManifest := fun _ => .ok "rootbytes"
    marshalBundle := fun _ => .ok "bundlebytes"
    marshalConfig := fun _ => .ok "configbytes"
    marshalOCIManifest := fun _ => .ok "manifestbytes" }

/-- A publish environment whose blob mounts all fail. -/
def mountFailEnv : PubEnv :=
  { happyPubEnv with mount := fun _ _ => .error "mount failed" }

/-- The concrete bundle metadata. -/
def tstMetadata : UDSMetadata :=
  { name := "b", description := "d", url := "", authors := "", documentation := "",
    source := "", vendor := "", architecture := "amd64" }

/-- The concrete package reference. -/
def tstPkg : ZarfPackageRef :=
  { repository := "reg.example/pkgs/alpha", ref := "0.0.1", optionalComponents := [] }

/-- The concrete bundle: one package, non-empty architecture. -/
def tstBundle : UDSBundle :=
  { metadata := tstMetadata
    build := { architecture := "amd64" }
    zarfPackages := [tstPkg] }

/-- The concrete bundle with the architecture left empty. -/
def emptyArchBundle : UDSBundle :=
  { tstBundle with metadata := { tstMetadata with architecture := "" } }

/-! ## Claim C2 -/

/-- Claim C2: a bundle whose metadata architecture is empty makes `Bundle`
fail with the validation error before any network action (its action trace is
empty), and a bundle with a non-empty architecture passes the check — the
publish never fails with that validation error. -/
theorem c2_architecture_precondition (env : PubEnv) (bundle : UDSBundle) (signature : String) :
    (bundle.metadata.architecture = "" →
        Bundle env bundle signature = ([], .error BundleErr.archRequired))
    ∧ (bundle.metadata.architecture ≠ "" →
        (Bundle env bundle signature).2 ≠ .error BundleErr.archRequired) := by
  constructor
  · intro hempty
    simp only [Bundle]
    rw [if_pos (by simp [hempty])]
  · intro hne
    simp only [Bundle]
    rw [if_neg (by simp [hne])]
    rcases hb : bundleBody env bundle signature with ⟨trB, resB⟩
    cases resB <;> simp

/-- Claim C2 witness: both directions on the concrete environment — the
empty-architecture bundle fails pre-flight with an empty trace, the concrete
bundle never sees the validation error. -/
theorem c2_architecture_precondition_witness :
    Bundle happyPubEnv emptyArchBundle "" = ([], .error BundleErr.archRequired)
    ∧ (Bundle happyPubEnv tstBundle "").2 ≠ .error BundleErr.archRequired :=
  ⟨(c2_architecture_precondition happyPubEnv emptyArchBundle "").1 rfl,
   (c2_architecture_precondition happyPubEnv tstBundle "").2 (by decide)⟩

/-! ## Claim C3 -/

/-- Claim C3: within one package's transfer the two strategies are exclusive.
When the source registry differs from the destination registry, the trace is
exactly the streaming copy of the source repository filtered to the selected
digests — all actions are streams. When the registries are equal, all actions
are mount requests, and on success they are exactly one mount per selected
layer plus the source package's config blob, in order. -/
theorem c3_transfer_strategy_exclusive (env : PubEnv) (remote : PkgRemote)
    (root : ZarfManifest) (layersToCopy : List Descriptor)
    (tr : List PubAction) (res : Except String Unit)
    (h : transferPhase env remote root layersToCopy = (tr, res)) :
    (remote.registry ≠ env.destRegistry →
        tr = copyPackageActions remote.repoDescriptors
            (fun d => layersToCopy.any fun layer => layer.digest == d.digest)
        ∧ ∀ a ∈ tr, ∃ dg, a = PubAction.stream dg)
    ∧ (remote.registry = env.destRegistry →
        (∀ a ∈ tr, ∃ dg, a = PubAction.mountLayer dg)
        ∧ (res = .ok () →
            tr = (layersToCopy ++ [root.config]).map fun l =>
              PubAction.mountLayer l.digest)) := by
  simp only [transferPhase] at h
  constructor
  · intro hne
    rw [if_pos (bne_iff_ne.mpr hne)] at h
    rw [Prod.mk.injEq] at h
    refine ⟨h.1.symm, ?_⟩
    intro a ha
    rw [← h.1] at ha
    exact copyPackageActions_only_streams _ _ a ha
  · intro heq
    rw [if_neg (by simp [heq])] at h
    constructor
    · intro a ha
      exact mountLoop_only_mounts env remote.repository _ a (by rw [h]; exact ha)
    · intro hok
      rw [hok] at h
      exact mountLoop_ok_trace env remote.repository _ tr h

/-- Claim C3 witness: the same-registry direction on the concrete
environment — the successful transfer mounts exactly the selected layer and
the config blob. -/
theorem c3_transfer_strategy_exclusive_witness :
    (transferPhase happyPubEnv sameRegRemote pubRoot [pubLayer]).1
      = ([pubLayer] ++ [pubRoot.config]).map fun l => PubAction.mountLayer l.digest :=
  ((c3_transfer_strategy_exclusive happyPubEnv sameRegRemote pubRoot [pubLayer]
      (transferPhase happyPubEnv sameRegRemote pubRoot [pubLayer]).1
      (transferPhase happyPubEnv sameRegRemote pubRoot [pubLayer]).2 rfl).2 rfl).2 rfl

/-! ## Claim C4 -/

/-- Claim C4: a failing blob mount in the same-registry path is terminal.
First conjunct: the mount loop stops at the first failing layer, returning
that error, with no streaming fallback and no further mounts. Second
conjunct: `Bundle` propagates the failing package's error at once — its trace
is the successful packages' actions followed by the failing package's actions,
nothing more. Third conjunct: a bundle-manifest push is attempted only when
every package's processing succeeded. -/
theorem c4_mount_failure_is_terminal :
    (∀ (env : PubEnv) (remote : PkgRemote) (root : ZarfManifest)
       (layersToCopy pre : List Descriptor) (l : Descriptor) (post : List Descriptor)
       (e : String),
       remote.registry = env.destRegistry →
       layersToCopy ++ [root.config] = pre ++ l :: post →
       (∀ x ∈ pre, env.mount x remote.repository = .ok ()) →
       env.mount l remote.repository = .error e →
       transferPhase env remote root layersToCopy
         = ((pre.map fun d => PubAction.mountLayer d.digest)
              ++ [PubAction.mountLayer l.digest], .error e))
    ∧ (∀ (env : PubEnv) (bundle : UDSBundle) (signature : String)
         (pkgs1 : List ZarfPackageRef) (pkg : ZarfPackageRef) (pkgs2 : List ZarfPackageRef)
         (tr1 : List PubAction) (ds1 : List Descriptor) (trp : List PubAction) (e : String),
         bundle.metadata.architecture ≠ "" →
         bundle.zarfPackages = pkgs1 ++ pkg :: pkgs2 →
         processPackages env pkgs1 = (tr1, .ok ds1) →
         processPackage env pkg = (trp, .error e) →
         Bundle env bundle signature = (tr1 ++ trp, .error (BundleErr.env e)))
    ∧ (∀ (env : PubEnv) (bundle : UDSBundle) (signature : String)
         (tr : List PubAction) (res : Except BundleErr OCIManifest) (r : String),
         Bundle env bundle signature = (tr, res) →
         PubAction.pushManifest r ∈ tr →
         ∃ trP ds, processPackages env bundle.zarfPackages = (trP, .ok ds)) := by
  refine ⟨?_, ?_, ?_⟩
  · intro env remote root layersToCopy pre l post e hr hsplit hpre hl
    simp only [transferPhase]
    rw [if_neg (by simp [hr]), hsplit]
    exact mountLoop_first_failure env remote.repository pre l post e hpre hl
  · intro env bundle signature pkgs1 pkg pkgs2 tr1 ds1 trp e harch hpkgs h1 hp
    have hall := processPackages_append_failure env pkgs1 pkg pkgs2 tr1 ds1 trp e h1 hp
    rw [← hpkgs] at hall
    simp only [Bundle]
    rw [if_neg (by simp [harch])]
    simp only [bundleBody, hall]
  · intro env bundle signature tr res r h hmem
    simp only [Bundle] at h
    split at h
    · rw [Prod.mk.injEq] at h
      rw [← h.1] at hmem
      simp at hmem
    · split at h
      · rename_i trB e hB
        rw [Prod.mk.injEq] at h
        rw [← h.1] at hmem
        exact bundleBody_manifest_push_requires_packages env bundle signature trB
          (.error e) hB r hmem
      · rename_i trB mB hB
        rw [Prod.mk.injEq] at h
        rw [← h.1] at hmem
        exact bundleBody_manifest_push_requires_packages env bundle signature trB
          (.ok mB) hB r hmem

/-- Claim C4 witness: the three conjuncts instantiated on the concrete
environments — a failing mount of the config blob ends the transfer with that
error, the whole publish of the concrete bundle aborts with it, and the
successful publish's manifest push implies its package loop succeeded. -/
theorem c4_mount_failure_is_terminal_witness :
    transferPhase mountFailEnv sameRegRemote pubRoot []
        = ([PubAction.mountLayer pubRoot.config.digest], .error "mount failed")
    ∧ Bundle mountFailEnv tstBundle ""
        = ([] ++ (processPackage mountFailEnv tstPkg).1, .error (BundleErr.env "mount failed"))
    ∧ ∃ trP ds, processPackages happyPubEnv tstBundle.zarfPackages = (trP, .ok ds) :=
  ⟨c4_mount_failure_is_terminal.1 mountFailEnv sameRegRemote pubRoot [] [] pubRoot.config []
      "mount failed" rfl rfl (by simp) rfl,
   c4_mount_failure_is_terminal.2.1 mountFailEnv tstBundle "" [] tstPkg [] [] []
      (processPackage mountFailEnv tstPkg).1 "mount failed" (by decide) rfl rfl rfl,
   c4_mount_failure_is_terminal.2.2 happyPubEnv tstBundle ""
      (Bundle happyPubEnv tstBundle "").1 (Bundle happyPubEnv tstBundle "").2
      happyPubEnv.destReference rfl (by decide)⟩

/-! ## Claim C6 -/

/-- Bundle metadata with every human-readable field empty. -/
def c6Metadata : UDSMetadata :=
  { name := "", description := "", url := "", authors := "", documentation := "",
    source := "", vendor := "", architecture := "amd64" }

/-- Claim C6 (counterexample): with every human-readable field empty, the
config-blob annotations still carry the (empty) name and description entries
and the manifest annotations still carry the (empty) description entry — an
empty field does contribute an annotation entry. -/
theorem c6_counterexample_empty_fields_still_annotated :
    (AnnotationTitle, "") ∈ configAnnotationsFromMetadata c6Metadata
    ∧ (AnnotationDescription, "") ∈ configAnnotationsFromMetadata c6Metadata
    ∧ (AnnotationDescription, "") ∈ manifestAnnotationsFromMetadata c6Metadata :=
  ⟨by decide, by decide, by decide⟩

set_option maxHeartbeats 2000000 in
/-- Claim C6 (amended): the URL, authors, documentation, source and vendor
fields each contribute a manifest annotation exactly when non-empty; the name
and description are included unconditionally — the config-blob annotations
always carry both, and the manifest annotations always carry the
description, even when empty. -/
theorem c6_annotations_conditional_only_for_five_fields (m : UDSMetadata) :
    ((∃ v, (AnnotationURL, v) ∈ manifestAnnotationsFromMetadata m) ↔ m.url ≠ "")
    ∧ ((∃ v, (AnnotationAuthors, v) ∈ manifestAnnotationsFromMetadata m) ↔ m.authors ≠ "")
    ∧ ((∃ v, (AnnotationDocumentation, v) ∈ manifestAnnotationsFromMetadata m)
        ↔ m.documentation ≠ "")
    ∧ ((∃ v, (AnnotationSource, v) ∈ manifestAnnotationsFromMetadata m) ↔ m.source ≠ "")
    ∧ ((∃ v, (AnnotationVendor, v) ∈ manifestAnnotationsFromMetadata m) ↔ m.vendor ≠ "")
    ∧ (AnnotationDescription, m.description) ∈ manifestAnnotationsFromMetadata m
    ∧ configAnnotationsFromMetadata m
        = [(AnnotationTitle, m.name), (AnnotationDescription, m.description)] := by
  refine ⟨?_, ?_, ?_, ?_, ?_, ?_, rfl⟩ <;>
    · simp only [manifestAnnotationsFromMetadata]
      split_ifs <;>
        simp_all [AnnotationURL, AnnotationDescription, AnnotationAuthors,
          AnnotationDocumentation, AnnotationSource, AnnotationVendor]

/-! ## Claim C7 -/

/-- The manifest the concrete signed publish pushes (the error arm is
unreachable on this environment). -/
def c7Manifest : OCIManifest :=
  match (Bundle happyPubEnv tstBundle "sig").2 with
  | .ok m => m
  | .error _ => { schemaVersion := 0, config := zeroDescriptor, layers := [], annotations := [] }

/-- Claim C7: every successful publish pushes a manifest with schema version
2 whose layer list is, in order: one sub-manifest descriptor per source
package in package-list order — the descriptor at index i is exactly the one
obtained by fetching the i-th package's root manifest, pushing its
serialization as a blob and coercing the pushed descriptor's media type to
image-manifest — then the bundle-metadata blob titled with the fixed
bundle-spec file name, then — exactly when a non-empty signature was
supplied — a signature blob titled with the fixed signature file name. -/
theorem c7_final_manifest_shape (env : PubEnv) (bundle : UDSBundle) (signature : String)
    (tr : List PubAction) (m : OCIManifest)
    (h : Bundle env bundle signature = (tr, .ok m)) :
    m.schemaVersion = 2
    ∧ ∃ subDescs bundleYamlDesc sigDescs,
        (∃ trP, processPackages env bundle.zarfPackages = (trP, Except.ok subDescs))
        ∧ subDescs.length = bundle.zarfPackages.length
        ∧ (∀ (i : Nat) (hi : i < bundle.zarfPackages.length) (hj : i < subDescs.length),
            ∃ remote root manifestBytes pushed,
              env.newRemote ((bundle.zarfPackages.get ⟨i, hi⟩).repository ++ ":"
                  ++ (bundle.zarfPackages.get ⟨i, hi⟩).ref) = .ok remote
              ∧ remote.fetchRoot = .ok root
              ∧ env.marshalManifest root = .ok manifestBytes
              ∧ env.pushLayer manifestBytes ZarfLayerMediaTypeBlob = .ok pushed
              ∧ subDescs.get ⟨i, hj⟩ = { pushed with mediaType := MediaTypeImageManifest })
        ∧ (∀ d ∈ subDescs, d.mediaType = MediaTypeImageManifest)
        ∧ bundleYamlDesc.annot AnnotationTitle = BundleYAML
        ∧ m.layers = subDescs ++ [bundleYamlDesc] ++ sigDescs
        ∧ ((signature.length = 0 ∧ sigDescs = [])
           ∨ (0 < signature.length ∧ ∃ sd, sigDescs = [sd]
                ∧ sd.annot AnnotationTitle = BundleYAMLSignature)) := by
  simp only [Bundle] at h
  split at h
  · simp at h
  · split at h
    · simp at h
    · rename_i trB mB hB
      rw [Prod.mk.injEq, Except.ok.injEq] at h
      obtain ⟨hsv, trP, subDescs, byd, sigDescs, hP, hbyd, hlayers, hsig⟩ :=
        bundleBody_ok_shape env bundle signature trB mB hB
      obtain ⟨hlen, hmt⟩ := processPackages_ok env bundle.zarfPackages trP subDescs hP
      rw [← h.2]
      refine ⟨hsv, subDescs, byd, sigDescs, ⟨trP, hP⟩, hlen, ?_, hmt, hbyd, hlayers, hsig⟩
      intro i hi hj
      obtain ⟨trp, hp⟩ :=
        processPackages_ok_index env bundle.zarfPackages trP subDescs hP i hi hj
      obtain ⟨remote, root, manifestBytes, pushed, h1, h2, h3, h4, h5⟩ :=
        processPackage_ok_desc env _ trp _ hp
      exact ⟨remote, root, manifestBytes, pushed, h1, h2, h3, h4, h5⟩

/-- Claim C7 witness: the concrete signed publish, whose pushed manifest is
`c7Manifest`. -/
theorem c7_final_manifest_shape_witness :
    c7Manifest.schemaVersion = 2
    ∧ ∃ subDescs bundleYamlDesc sigDescs,
        (∃ trP, processPackages happyPubEnv tstBundle.zarfPackages
            = (trP, Except.ok subDescs))
        ∧ subDescs.length = tstBundle.zarfPackages.length
        ∧ (∀ (i : Nat) (hi : i < tstBundle.zarfPackages.length) (hj : i < subDescs.length),
            ∃ remote root manifestBytes pushed,
              happyPubEnv.newRemote ((tstBundle.zarfPackages.get ⟨i, hi⟩).repository ++ ":"
                  ++ (tstBundle.zarfPackages.get ⟨i, hi⟩).ref) = .ok remote
              ∧ remote.fetchRoot = .ok root
              ∧ happyPubEnv.marshalManifest root = .ok manifestBytes
              ∧ happyPubEnv.pushLayer manifestBytes ZarfLayerMediaTypeBlob = .ok pushed
              ∧ subDescs.get ⟨i, hj⟩ = { pushed with mediaType := MediaTypeImageManifest })
        ∧ (∀ d ∈ subDescs, d.mediaType = MediaTypeImageManifest)
        ∧ bundleYamlDesc.annot AnnotationTitle = BundleYAML
        ∧ c7Manifest.layers = subDescs ++ [bundleYamlDesc] ++ sigDescs
        ∧ (("sig".length = 0 ∧ sigDescs = [])
           ∨ (0 < "sig".length ∧ ∃ sd, sigDescs = [sd]
                ∧ sd.annot AnnotationTitle = BundleYAMLSignature)) :=
  c7_final_manifest_shape happyPubEnv tstBundle "sig"
    (Bundle happyPubEnv tstBundle "sig").1 c7Manifest rfl

/-! ## Concrete fetch environments -/

/-- A sub-manifest descriptor located in the bundle root of the concrete
environments. -/
def tstPkgDesc : Descriptor :=
  { mediaType := MediaTypeImageManifest, digest := "sha256:pkg", size := 7, annotations := [] }

/-- A declared layer of the concrete package sub-manifest. -/
def tstLayer : Descriptor :=
  { mediaType := ZarfLayerMediaTypeBlob, digest := "sha256:aaa", size := 4,
    annotations := [(AnnotationTitle, ZarfYAML)] }

/-- A fresh fetch session against the concrete environments. -/
def tstRB : RemoteBundle :=
  { pkgName := "pkg", pkgManifestSHA := "sha256:pkg", tmpDir := "/tmp/dl",
    isPartialFlag := false }

/-- A fetch environment in which every collaborator succeeds: the bundle root
holds the package sub-manifest, the sub-manifest declares one layer, and that
layer exists in the remote bundle. -/
def happyFetchEnv : FetchEnv :=
  { fetchRoot := .ok { config := zeroDescriptor, layers := [tstPkgDesc] }
    fetchManifest := fun _ => .ok { config := zeroDescriptor, layers := [tstLayer] }
    fetchLayer := fun _ => .ok "layer-bytes"
    blobExists := fun _ => .ok true
    cacheExists := fun _ => false
    cacheUse := fun _ _ => .ok ()
    newFileStore := fun _ => .ok ()
    orasCopy := fun _ => .ok ()
    parseZarfPackage := fun _ => .ok { aggregateChecksum := "abc" }
    writeYaml := .ok ()
    writeFile := fun _ => .ok ()
    validate := fun _ _ _ => .ok () }

/-- The fetch environment of the C1 evidence: the single declared layer is
absent from the remote bundle; everything else succeeds. -/
def c1Env : FetchEnv :=
  { happyFetchEnv with blobExists := fun _ => .ok false }

/-! ## Claim C1 -/

/-- Claim C1 (code-bug evidence): the partiality flag is not `true` iff the
present-layer count is strictly below the declared count. On a fresh session
whose sub-manifest declares exactly one layer and where that layer is absent
from the remote bundle, the download succeeds and returns the flag `false`,
although 0 layers are present and 1 is declared: the code compares the
declared count against the length of the returned list, which is seeded with
the sub-manifest descriptor itself, so it tests `declared > present + 1`. -/
theorem c1_partiality_flag_not_set_when_one_layer_missing :
    (downloadPkgFromRemoteBundle c1Env tstRB).2
        = Except.ok ([{ tstPkgDesc with mediaType := ZarfLayerMediaTypeBlob }], false)
      ∧ (presentFilter c1Env [tstLayer]).length
          < ((1 : Nat) : Nat) := by
  exact ⟨rfl, by decide⟩

/-! ## Claim C9 -/

/-- Claim C9: every successful `downloadPkgFromRemoteBundle` run returns, as
the first element of its descriptor list, the package's sub-manifest
descriptor with its media type mutated to the Zarf blob media type, followed
by exactly the declared layers confirmed present; hence the list's length is
one greater than the number of present declared layers. -/
theorem c9_download_returns_submanifest_first (env : FetchEnv) (rb : RemoteBundle)
    (tr : List FetchEvent) (layers : List Descriptor) (flag : Bool)
    (h : downloadPkgFromRemoteBundle env rb = (tr, .ok (layers, flag))) :
    ∃ root pm,
      env.fetchRoot = .ok root
      ∧ env.fetchManifest
          { root.locate rb.pkgManifestSHA with mediaType := ZarfLayerMediaTypeBlob } = .ok pm
      ∧ layers = { root.locate rb.pkgManifestSHA with mediaType := ZarfLayerMediaTypeBlob }
          :: presentFilter env pm.layers
      ∧ layers.length = 1 + (presentFilter env pm.layers).length := by
  simp only [downloadPkgFromRemoteBundle] at h
  split at h
  · simp at h
  · rename_i root hroot
    split at h
    · simp at h
    · split at h
      · simp at h
      · rename_i pm hpm
        split at h
        · simp at h
        · rename_i ltp lib est hverify
          split at h
          · simp at h
          · split at h
            · simp at h
            · rw [Prod.mk.injEq, Except.ok.injEq, Prod.mk.injEq] at h
              have hlib := verifyLayers_inBundle env rb pm.layers _ _ _ _ _ _ hverify
              refine ⟨root, pm, hroot, hpm, ?_, ?_⟩
              · rw [← h.2.1, hlib]; simp
              · rw [← h.2.1, hlib]; simp [Nat.add_comm]

/-- Claim C9 witness: the property instantiated on the concrete all-succeeding
environment, whose single declared layer is present. -/
theorem c9_download_returns_submanifest_first_witness :
    ∃ root pm,
      happyFetchEnv.fetchRoot = .ok root
      ∧ happyFetchEnv.fetchManifest
          { root.locate tstRB.pkgManifestSHA with mediaType := ZarfLayerMediaTypeBlob } = .ok pm
      ∧ [{ tstPkgDesc with mediaType := ZarfLayerMediaTypeBlob }, tstLayer]
          = { root.locate tstRB.pkgManifestSHA with mediaType := ZarfLayerMediaTypeBlob }
            :: presentFilter happyFetchEnv pm.layers
      ∧ [{ tstPkgDesc with mediaType := ZarfLayerMediaTypeBlob }, tstLayer].length
          = 1 + (presentFilter happyFetchEnv pm.layers).length :=
  c9_download_returns_submanifest_first happyFetchEnv tstRB
    [FetchEvent.progressStart, FetchEvent.sendDone, FetchEvent.wgWait]
    [{ tstPkgDesc with mediaType := ZarfLayerMediaTypeBlob }, tstLayer] false rfl

/-! ## Claim C8 -/

/-- The fetch environment of the C8 counterexample: the registry copy fails
after the progress task has been started. -/
def c8Env : FetchEnv :=
  { happyFetchEnv with orasCopy := fun _ => .error "copy failed" }

/-- Claim C8 (counterexample): on the return path where the registry copy
fails — a path reached after the concurrent progress task has been started —
the function signals the error channel and returns at once: its trace holds no
wait on the progress task's termination. -/
theorem c8_counterexample_no_wait_on_copy_error :
    (downloadPkgFromRemoteBundle c8Env tstRB).1
        = [FetchEvent.progressStart, FetchEvent.sendErr]
      ∧ FetchEvent.wgWait ∉ (downloadPkgFromRemoteBundle c8Env tstRB).1
      ∧ (downloadPkgFromRemoteBundle c8Env tstRB).2 = Except.error "copy failed" :=
  ⟨rfl, by decide, rfl⟩

/-- Claim C8 (amended): after the progress task has been started, the
function waits for its acknowledged termination (`wg.Wait`) only on the
successful-copy path, where the trace ends with the completion signal followed
by the wait; on the path where the registry copy fails, it signals the error
channel and returns without waiting. -/
theorem c8_progress_sync (env : FetchEnv) (rb : RemoteBundle)
    (tr : List FetchEvent) (res : Except String (List Descriptor × Bool))
    (h : downloadPkgFromRemoteBundle env rb = (tr, res)) :
    (∀ v, res = .ok v →
        tr = [FetchEvent.progressStart, FetchEvent.sendDone, FetchEvent.wgWait])
    ∧ (∀ e, res = .error e → FetchEvent.progressStart ∈ tr →
        tr = [FetchEvent.progressStart, FetchEvent.sendErr]) := by
  simp only [downloadPkgFromRemoteBundle] at h
  split at h
  · rw [Prod.mk.injEq] at h
    exact ⟨fun v hv => by rw [← h.2] at hv; simp at hv,
           fun e he hs => by rw [← h.1] at hs; simp at hs⟩
  · split at h
    · rw [Prod.mk.injEq] at h
      exact ⟨fun v hv => by rw [← h.2] at hv; simp at hv,
             fun e he hs => by rw [← h.1] at hs; simp at hs⟩
    · split at h
      · rw [Prod.mk.injEq] at h
        exact ⟨fun v hv => by rw [← h.2] at hv; simp at hv,
               fun e he hs => by rw [← h.1] at hs; simp at hs⟩
      · split at h
        · rw [Prod.mk.injEq] at h
          exact ⟨fun v hv => by rw [← h.2] at hv; simp at hv,
                 fun e he hs => by rw [← h.1] at hs; simp at hs⟩
        · split at h
          · rw [Prod.mk.injEq] at h
            exact ⟨fun v hv => by rw [← h.2] at hv; simp at hv,
                   fun e he hs => by rw [← h.1] at hs; simp at hs⟩
          · split at h
            · rw [Prod.mk.injEq] at h
              exact ⟨fun v hv => by rw [← h.2] at hv; simp at hv,
                     fun e he _ => h.1.symm⟩
            · rw [Prod.mk.injEq] at h
              exact ⟨fun v _ => h.1.symm,
                     fun e he _ => by rw [← h.2] at he; simp at he⟩

/-- Claim C8 witness: the amended property instantiated on the concrete
all-succeeding environment. -/
theorem c8_progress_sync_witness :
    (downloadPkgFromRemoteBundle happyFetchEnv tstRB).1
      = [FetchEvent.progressStart, FetchEvent.sendDone, FetchEvent.wgWait] :=
  (c8_progress_sync happyFetchEnv tstRB (downloadPkgFromRemoteBundle happyFetchEnv tstRB).1
      (downloadPkgFromRemoteBundle happyFetchEnv tstRB).2 rfl).1
    ([{ tstPkgDesc with mediaType := ZarfLayerMediaTypeBlob }, tstLayer], false) rfl

/-! ## Claim C5 -/

/-- Claim C5 (counterexample): a successful `LoadPackageMetadata` run on the
concrete all-succeeding environment invokes the final integrity validation in
the tolerant mode — its trace holds a validator call with mode `true` and
none with mode `false` — refuting the claim that the validator is invoked
with the non-partial mode. -/
theorem c5_counterexample_validation_in_tolerant_mode :
    (LoadPackageMetadata happyFetchEnv tstRB).2 = Except.ok ()
      ∧ FetchEvent.validate true ∈ (LoadPackageMetadata happyFetchEnv tstRB).1
      ∧ FetchEvent.validate false ∉ (LoadPackageMetadata happyFetchEnv tstRB).1 :=
  ⟨rfl, by decide, by decide⟩

/-- Claim C5 (amended): every validator call `LoadPackageMetadata` performs
passes partial mode `true` (fetch treated as tolerant of missing content, not
authoritative), and every successful run performs such a call. -/
theorem c5_load_metadata_validates_in_tolerant_mode (env : FetchEnv) (rb : RemoteBundle)
    (tr : List FetchEvent) (res : Except String Unit)
    (h : LoadPackageMetadata env rb = (tr, res)) :
    (∀ b, FetchEvent.validate b ∈ tr → b = true)
    ∧ (res = .ok () → FetchEvent.validate true ∈ tr) := by
  simp only [LoadPackageMetadata] at h
  split at h
  · rw [Prod.mk.injEq] at h
    exact ⟨fun b hb => by rw [← h.1] at hb; simp at hb,
           fun hok => by rw [← h.2] at hok; simp at hok⟩
  · rename_i root hroot
    split at h
    · rw [Prod.mk.injEq] at h
      exact ⟨fun b hb => by rw [← h.1] at hb; simp at hb,
             fun hok => by rw [← h.2] at hok; simp at hok⟩
    · split at h
      · rw [Prod.mk.injEq] at h
        exact ⟨fun b hb => by rw [← h.1] at hb; simp at hb,
               fun hok => by rw [← h.2] at hok; simp at hok⟩
      · rename_i pm hpm
        split at h
        · rw [Prod.mk.injEq] at h
          exact ⟨fun b hb => by rw [← h.1] at hb; simp at hb,
                 fun hok => by rw [← h.2] at hok; simp at hok⟩
        · split at h
          · rw [Prod.mk.injEq] at h
            exact ⟨fun b hb => by rw [← h.1] at hb; simp at hb,
                   fun hok => by rw [← h.2] at hok; simp at hok⟩
          · rename_i zarfYAML hparse
            rw [Prod.mk.injEq] at h
            have hsub := loadMetadataChecksumPhase_validate env
              (root.locate rb.pkgManifestSHA) pm zarfYAML
              (loadMetadataChecksumPhase env (root.locate rb.pkgManifestSHA) pm zarfYAML).1
              (loadMetadataChecksumPhase env (root.locate rb.pkgManifestSHA) pm zarfYAML).2
              rfl
            constructor
            · intro b hb
              rw [← h.1] at hb
              rcases List.mem_cons.mp hb with hhead | htail
              · simp at hhead
              · exact hsub.1 b htail
            · intro hok
              rw [← h.2] at hok
              rw [← h.1]
              exact List.mem_cons_of_mem _ (hsub.2 hok)

/-- A fetch environment whose validator rejects: `LoadPackageMetadata` still
invokes it in tolerant mode. -/
def c5Env : FetchEnv :=
  { happyFetchEnv with validate := fun _ _ m => if m then .ok () else .error "strict" }

/-- Claim C5 witness: the amended property instantiated on a concrete
environment whose validator succeeds exactly in tolerant mode. -/
theorem c5_load_metadata_validates_in_tolerant_mode_witness :
    FetchEvent.validate true ∈ (LoadPackageMetadata c5Env tstRB).1 :=
  (c5_load_metadata_validates_in_tolerant_mode c5Env tstRB
      (LoadPackageMetadata c5Env tstRB).1 (LoadPackageMetadata c5Env tstRB).2 rfl).2 rfl

/-! ## Claim C10 -/

/-- Claim C10: when the fetched sub-manifest holds no layer whose title
annotation is the fixed package-spec file name, `LoadPackageMetadata` raises
no not-found error at the title lookup: its first action is a fetch of the
zero descriptor, and when that fetch fails its error is what the call
returns — absence is surfaced only as the downstream fetch error. -/
theorem c10_missing_spec_layer_fetches_zero_descriptor (env : FetchEnv) (rb : RemoteBundle)
    (root pm : ZarfManifest)
    (hroot : env.fetchRoot = .ok root)
    (hne : IsEmptyDescriptor (root.locate rb.pkgManifestSHA) = false)
    (hpm : env.fetchManifest (root.locate rb.pkgManifestSHA) = .ok pm)
    (hno : ∀ l ∈ pm.layers, l.annot AnnotationTitle ≠ ZarfYAML) :
    (LoadPackageMetadata env rb).1.head? = some (FetchEvent.fetchLayer zeroDescriptor)
    ∧ ∀ e, env.fetchLayer zeroDescriptor = .error e →
        (LoadPackageMetadata env rb).2 = .error e := by
  have hfind : pm.layers.find? (fun l => l.annot AnnotationTitle == ZarfYAML) = none :=
    List.find?_eq_none.mpr fun x hx => by simpa using hno x hx
  simp only [LoadPackageMetadata, hroot, hne, hpm, hfind, Bool.false_eq_true, if_false,
    Option.getD_none]
  cases hfl : env.fetchLayer zeroDescriptor with
  | error e =>
    refine ⟨by simp, ?_⟩
    intro e2 he2
    injection he2 with hee
    subst hee
    simp
  | ok bytes =>
    cases hp : env.parseZarfPackage bytes with
    | error e2 =>
      refine ⟨by simp [hp], ?_⟩
      intro e3 he3
      exact absurd he3 (by simp)
    | ok z =>
      refine ⟨by simp [hp], ?_⟩
      intro e3 he3
      exact absurd he3 (by simp)

/-- The fetch environment of the C10 witness: the sub-manifest declares no
layers at all — in particular none titled with the package-spec file name —
and every layer fetch fails. -/
def c10Env : FetchEnv :=
  { happyFetchEnv with
      fetchManifest := fun _ => .ok { config := zeroDescriptor, layers := [] }
      fetchLayer := fun _ => .error "layer fetch failed" }

/-- Claim C10 witness: the property instantiated on the concrete environment
with no package-spec layer — the downstream fetch error is what comes back. -/
theorem c10_missing_spec_layer_fetches_zero_descriptor_witness :
    (LoadPackageMetadata c10Env tstRB).2 = Except.error "layer fetch failed" :=
  (c10_missing_spec_layer_fetches_zero_descriptor c10Env tstRB
      { config := zeroDescriptor, layers := [tstPkgDesc] }
      { config := zeroDescriptor, layers := [] }
      rfl (by decide) rfl (by simp)).2 "layer fetch failed" rfl

end UDS
